import Mathlib

/-!
Verification of the session scheduling, command-distribution and
policy-composition engine of the G-districts/Gschool-connect control plane
(`src/app.py`), via a shallow embedding of the relevant handlers and helpers.

Conventions of the embedding:
* Python dicts holding the persistent store are modelled as a `Store`
  structure whose fields correspond to the keys the engine reads and writes
  (`ensure_keys` / `_ensure_sessions_students` guarantee those keys exist,
  so total fields are faithful).
* `dict.get(k, default)` / `x or default` falsiness is modelled explicitly
  (`pyTruthyStr`, `pyOrOpt`, `Option.getD`).
* The persisted `active_sessions` list is consumed by membership only
  (it is turned into a Python `set` before every use), so it is modelled
  as a `Finset String`.
* The current wall clock is passed explicitly as an `Instant`
  (local weekday, local microsecond-of-day, epoch seconds), standing for
  `datetime.now()` / `time.time()` at the moment a handler runs.
* Handlers return the pair (store as persisted after the request, response).
  A path that returns without calling `save_data` yields the input store.
-/

/-! ### Python string primitives

Lean's own `String` functions do not reduce inside the kernel, so the string
operations used by the source (`strip`, `lower`, `split`, `int`, substring
containment) are modelled character-listwise.  They follow Python semantics
on the ASCII strings the engine manipulates. -/

/-- Python `str.strip()` (ASCII whitespace). -/
def pyStrip (s : String) : String :=
  ⟨((s.toList.dropWhile Char.isWhitespace).reverse.dropWhile Char.isWhitespace).reverse⟩

/-- Python `str.lower()` (ASCII letters). -/
def pyLower (s : String) : String :=
  ⟨s.toList.map Char.toLower⟩

/-- `startsWithL hay pat` is true iff `pat` is a prefix of `hay`. -/
def startsWithL : List Char → List Char → Bool
  | _, [] => true
  | [], _ :: _ => false
  | h :: hs, p :: ps => h = p && startsWithL hs ps

/-- `containsL hay pat`: Python `pat in hay` substring containment. -/
def containsL : List Char → List Char → Bool
  | [], pat => pat.isEmpty
  | h :: hs, pat => startsWithL (h :: hs) pat || containsL hs pat

/-- Python `pat in s` for strings. -/
def pyContains (s pat : String) : Bool :=
  containsL s.toList pat.toList

/-- Python `s.split(sep)` for a single-character separator: splits on every
occurrence, keeping empty pieces. -/
def splitOnCharAux (sep : Char) : List Char → List Char → List (List Char)
  | [], acc => [acc.reverse]
  | c :: rest, acc =>
    if c = sep then acc.reverse :: splitOnCharAux sep rest []
    else splitOnCharAux sep rest (c :: acc)

/-- Python `s.split(sep)` (single-character separator). -/
def pySplit (s : String) (sep : Char) : List String :=
  (splitOnCharAux sep s.toList []).map (fun l => ⟨l⟩)

/-- Digits of an ASCII decimal numeral to its value. -/
def digitsToNat (l : List Char) : Nat :=
  l.foldl (fun a c => a * 10 + (c.toNat - 48)) 0

/-- Python `int(s)`: optional surrounding whitespace, optional sign, at least
one ASCII digit; raises (here: `none`) otherwise.  (Underscore digit
grouping, accepted by Python 3, is not modelled; no schedule string uses
it.) -/
def pyInt (s : String) : Option Int :=
  let t := (pyStrip s).toList
  let (neg, digits) :=
    match t with
    | '-' :: rest => (true, rest)
    | '+' :: rest => (false, rest)
    | rest => (false, rest)
  if digits ≠ [] ∧ digits.all Char.isDigit then
    some (if neg then -(digitsToNat digits : Int) else (digitsToNat digits : Int))
  else none

/-- Python `s[:n]` character slicing. -/
def pyTake (s : String) (n : Nat) : String :=
  ⟨s.toList.take n⟩

/-- Python truthiness of an optional string (`None` and `""` are falsy). -/
def pyTruthyStr : Option String → Bool
  | some s => s ≠ ""
  | none => false

/-- Python `a or b` on optional strings. -/
def pyOrOpt (a b : Option String) : Option String :=
  if pyTruthyStr a then a else b

/-- Python `(x or default)` where `x` is an optional string. -/
def pyOrDefault (a : Option String) (d : String) : String :=
  match pyOrOpt a (some d) with
  | some s => s
  | none => d

/-- Python `l[-n:]`: the last `n` elements (whole list when shorter). -/
def lastN (n : Nat) (l : List α) : List α :=
  l.drop (l.length - n)

example : pyStrip "  hi " = "hi" := by decide
example : pyLower "Guest7" = "guest7" := by decide
example : pyContains "anonymous" "anon" = true := by decide
example : pySplit "10:30" ':' = ["10", "30"] := by decide
example : pyInt " 10" = some 10 := by decide
example : pyInt "1x" = none := by decide
example : lastN 2 [1, 2, 3] = [2, 3] := by decide

/-! ### Data model (src/app.py `_safe_default_data` / session helpers) -/

/-- The moment a handler runs: `datetime.now()` (local weekday and
microseconds since local midnight) together with `time.time()` (epoch
seconds, at integer precision; no claim depends on fractional seconds). -/
structure Instant where
  weekday : Int
  usOfDay : Int
  epoch : Int
deriving DecidableEq, Repr

/-- A queued command dict.  `type`, the stamps `session_id` / `ts`, and the
remaining key/value fields (flattened to string pairs, which is all any
claim inspects) — see the stamping in `api_command`. -/
structure Cmd where
  type : String := ""
  session_id : String := ""
  ts : Int := 0
  payload : List (String × String) := []
deriving DecidableEq, Repr

/-- A session's `controls` record (missing keys read as falsy defaults). -/
structure Controls where
  focusMode : Bool := false
  allowlist : List String := []
  examMode : Bool := false
  examUrl : String := ""
deriving DecidableEq, Repr

/-- One schedule entry (`sess["schedule"]["entries"][i]`).
`weekly`: `days` is `entry.get("days")` (`none` = key absent), `start` /
`endT` are `entry.get("start")` / `entry.get("end")` (`none` = key absent,
in which case the source defaults `"00:00"` / `"23:59"`).
`oneoff`: `startTs` / `endTs` stand for `entry["startISO"]` /
`entry["endISO"]` already converted to epoch seconds, `none` when the key
is missing/empty or the ISO string is unparseable (no claim exercises the
ISO grammar itself).
`other`: an entry whose `type` tag is neither `"weekly"` nor `"oneoff"`;
`_session_is_scheduled_active` ignores it. -/
inductive ScheduleEntry where
  | weekly (days : Option (List Int)) (start : Option String) (endT : Option String)
  | oneoff (startTs : Option Int) (endTs : Option Int)
  | other
deriving DecidableEq, Repr

/-- A session object as stored in `store["sessions"]` (shape produced by
`POST /api/sessions`; `.get` defaults model absent keys). -/
structure Session where
  id : String
  students : List String := []
  controls : Controls := {}
  schedule : List ScheduleEntry := []
  manual : Bool := false
deriving DecidableEq, Repr

/-- A presence `tab` record (only the keys the heartbeat touches). -/
structure Tab where
  id : Option Int := none
  url : String := ""
  title : String := ""
  favIconUrl : Option String := none
  favicon : Option String := none
deriving DecidableEq, Repr

/-- One timeline entry appended by the heartbeat. -/
structure TimelineEntry where
  ts : Int := 0
  title : String := ""
  url : String := ""
  favIconUrl : Option String := none
deriving DecidableEq, Repr

/-- One `shot_log` element of a heartbeat body. -/
structure ShotIn where
  tabId : Option Int := none
  dataUrl : Option String := none
  title : Option String := none
  url : Option String := none
deriving DecidableEq, Repr

/-- One screenshot-history record persisted by the heartbeat. -/
structure ShotRec where
  ts : Int := 0
  tabId : Option Int := none
  dataUrl : Option String := none
  title : String := ""
  url : String := ""
deriving DecidableEq, Repr

/-- A student's presence record (`store["presence"][student]`). -/
structure PresenceRec where
  last_seen : Int := 0
  student_name : String := ""
  tab : Tab := {}
  tabs : List Tab := []
  screenshot : String := ""
  tabshots : List (String × String) := []
deriving DecidableEq, Repr

/-- The persisted store (`data.json`), restricted to the keys the verified
engine reads or writes.  The queue maps model dicts whose missing keys read
as `[]` (every access in the source goes through `.get(k, [])` or
`setdefault(k, [])`, so a missing key and an empty list are
indistinguishable).  `active_sessions` is persisted as a list but consumed
via `set(...)` membership only, hence a `Finset`.  `presence` maps a student
to `none` when the key is absent. -/
structure Store where
  sessions : List Session := []
  active_sessions : Finset String := ∅
  pending_by_session : String → List Cmd := fun _ => []
  pending_per_student : String → List Cmd := fun _ => []
  presence : String → Option PresenceRec := fun _ => none
  history : String → List TimelineEntry := fun _ => []
  screenshots : String → List ShotRec := fun _ => []
  extension_enabled : Bool := true

/-! ### Schedule Matcher (`_weekly_match`, `_oneoff_match`,
`_session_is_scheduled_active`) -/

/-- `"HH:MM"` to hours/minutes: the source's
`sh, sm = [int(x) for x in str(v).split(":")]` — exactly two `:`-separated
pieces, each parsed by `int`; anything else raises (→ `none`). -/
def parseHM (s : String) : Option (Int × Int) :=
  match pySplit s ':' with
  | [a, b] =>
    match pyInt a, pyInt b with
    | some h, some m => some (h, m)
    | _, _ => none
  | _ => none

/-- `_weekly_match(entry, now)`: weekday must be listed, then the window
`[start, end]` built by `now.replace(hour=…, minute=…, second=0,
microsecond=0)` must contain `now`; any exception (unparseable time,
out-of-range hour/minute rejected by `datetime.replace`) is caught and
yields `False`. -/
def _weekly_match (days : Option (List Int)) (start endT : Option String)
    (now : Instant) : Bool :=
  if now.weekday ∉ (days.getD []) then false
  else
    match parseHM (start.getD "00:00"), parseHM (endT.getD "23:59") with
    | some (sh, sm), some (eh, em) =>
      if 0 ≤ sh ∧ sh ≤ 23 ∧ 0 ≤ sm ∧ sm ≤ 59 ∧ 0 ≤ eh ∧ eh ≤ 23 ∧ 0 ≤ em ∧ em ≤ 59 then
        let startUs := (sh * 3600 + sm * 60) * 1000000
        let endUs := (eh * 3600 + em * 60) * 1000000
        decide (startUs ≤ now.usOfDay ∧ now.usOfDay ≤ endUs)
      else false
    | _, _ => false

/-- `_oneoff_match(entry, now)`: `s and e and (s.timestamp() <= now <=
e.timestamp())`; a missing/unparseable bound is falsy. -/
def _oneoff_match (startTs endTs : Option Int) (now : Instant) : Bool :=
  match startTs, endTs with
  | some s, some e => decide (s ≤ now.epoch ∧ now.epoch ≤ e)
  | _, _ => false

/-- Match of a single schedule entry, dispatching on its `type` tag. -/
def entryMatch (now : Instant) : ScheduleEntry → Bool
  | .weekly days start endT => _weekly_match days start endT now
  | .oneoff s e => _oneoff_match s e now
  | .other => false

/-- `_session_is_scheduled_active(sess)`: OR over the schedule entries. -/
def _session_is_scheduled_active (sess : Session) (now : Instant) : Bool :=
  sess.schedule.any (entryMatch now)

example :
    _weekly_match (some [0, 2]) (some "10:00") (some "11:30")
      ⟨2, 10 * 3600 * 1000000, 0⟩ = true := by decide
example :
    _weekly_match (some [0, 2]) (some "11:00") (some "10:30")
      ⟨2, 45000 * 1000000, 0⟩ = false := by decide
example :
    _weekly_match (some [0]) (some "ten") (some "11:00")
      ⟨0, 0, 0⟩ = false := by decide

/-! ### Active Session Reconciler (`_reconcile_active_sessions`) -/

/-- Keys of a Python dict built by `{s["id"]: s for s in l}`: first-occurrence
order, duplicates collapsed.  (`List.dedup` keeps last occurrences, so
reverse–dedup–reverse keeps first ones.) -/
def pyDictKeys (l : List String) : List String :=
  (l.reverse.dedup).reverse

/-- The value a comprehension `{s["id"]: s for s in l}` associates to a key:
the last session in `l` carrying that id. -/
def lookupLastSession (l : List Session) (sid : String) : Option Session :=
  (l.filter (fun s => s.id = sid)).getLast?

/-- One iteration of the `for sid, sess in sessions_by_id.items()` loop in
`_reconcile_active_sessions`. -/
def reconcileStep (now : Instant) (sessions : List Session)
    (a : Finset String) (sid : String) : Finset String :=
  match lookupLastSession sessions sid with
  | some sess =>
    if _session_is_scheduled_active sess now then insert sid a
    else if sid ∈ a ∧ ¬ sess.manual then a.erase sid
    else a
  | none => a

/-- `_reconcile_active_sessions(store)`: starts from the *persisted*
`active_sessions` set and walks `sessions_by_id`, adding every
schedule-active session and discarding a session that is not schedule-active
only when it is currently in the set and its `manual` flag is falsy. -/
def _reconcile_active_sessions (store : Store) (now : Instant) : Store :=
  { store with
    active_sessions :=
      (pyDictKeys (store.sessions.map (fun s => s.id))).foldl
        (reconcileStep now store.sessions) store.active_sessions }

/-- `_active_session_ids(store)` (the reconciled store is mutated in place,
so callers observe it; returned alongside the id set). -/
def _active_session_ids (store : Store) (now : Instant) : Store × Finset String :=
  let d := _reconcile_active_sessions store now
  (d, d.active_sessions)

/-- `_student_active_sessions(store, student)`: reconciles, takes the active
id set (reconciling a second time via `_active_session_ids`), and lists the
ids of active sessions that enrol the student, in `sessions` order. -/
def _student_active_sessions (store : Store) (student : String) (now : Instant) :
    Store × List String :=
  let d := _reconcile_active_sessions store now
  let (d2, act) := _active_session_ids d now
  (d2, (d2.sessions.filter
          (fun s => s.id ∈ act ∧ student ∈ s.students)).map (fun s => s.id))

/-! ### Command Queue Manager (`_enqueue_session_cmd`) -/

/-- `_enqueue_session_cmd(store, sid, cmd)`: append, then
`if len(q) > 200: del q[:-200]` (keep the newest 200). -/
def _enqueue_session_cmd (store : Store) (sid : String) (cmd : Cmd) : Store :=
  let q := store.pending_by_session sid
  let q1 := q ++ [cmd]
  let q2 := if q1.length > 200 then lastN 200 q1 else q1
  { store with pending_by_session := Function.update store.pending_by_session sid q2 }

/-! ### Effective Policy Composer (`_effective_state_for_student`) -/

/-- The merged record being built by the loop of
`_effective_state_for_student` (`allow` is the Python `set()` accumulator;
the final `allowlist` is `sorted(list(allow))`). -/
structure MergeAcc where
  focusMode : Bool := false
  examMode : Bool := false
  examUrl : String := ""
  allow : Finset String := ∅
deriving DecidableEq

/-- One iteration of the `for s in relevant` merge loop. -/
def mergeStep (acc : MergeAcc) (s : Session) : MergeAcc :=
  let c := s.controls
  let a1 := if c.focusMode then { acc with focusMode := true } else acc
  let a2 :=
    if c.examMode then
      { a1 with
        examMode := true
        examUrl := if a1.examUrl = "" ∧ c.examUrl ≠ "" then c.examUrl else a1.examUrl }
    else a1
  { a2 with allow := c.allowlist.foldl (fun t u => insert u t) a2.allow }

/-- The composed effective state returned to a student. -/
structure Merged where
  focusMode : Bool
  allowlist : List String
  examMode : Bool
  examUrl : String
  session_ids : List String
deriving DecidableEq

/-- `_effective_state_for_student(store, student)`: reconcile, select the
active sessions enrolling the student (in `sessions` order), then fold the
merge loop.  Returns the merged state together with the store as mutated by
the embedded reconciliation. -/
def _effective_state_for_student (store : Store) (student : String)
    (now : Instant) : Store × Merged :=
  let d := _reconcile_active_sessions store now
  let relevant := d.sessions.filter
    (fun s => s.id ∈ d.active_sessions ∧ student ∈ s.students)
  let acc := relevant.foldl mergeStep {}
  (d, { focusMode := acc.focusMode
        allowlist := acc.allow.sort (· ≤ ·)
        examMode := acc.examMode
        examUrl := acc.examUrl
        session_ids := relevant.map (fun s => s.id) })

/-! ### Guest identity (`_is_guest_identity`) -/

/-- `_GUEST_TOKENS` from the source. -/
def _GUEST_TOKENS : List String := ["guest", "anon", "anonymous", "trial", "temp"]

/-- `_is_guest_identity(email, name)`: empty (stripped) email, or a guest
token occurring in the lowered email or display name. -/
def _is_guest_identity (email name : String) : Bool :=
  let e := pyLower (pyStrip email)
  let n := pyLower (pyStrip name)
  if e = "" then true
  else if _GUEST_TOKENS.any (fun t => pyContains e t) then true
  else if _GUEST_TOKENS.any (fun t => pyContains n t) then true
  else false

/-! ### Command send handlers (`api_command`, `api_notify`)

Authentication (the `current_user` role gate) is framework plumbing outside
the verified core; the handlers are modelled from the role check onward. -/

/-- An HTTP-level outcome: `ok` is `jsonify({"ok": True})`; `err` carries the
status code and the `error` field of the JSON body. -/
inductive Resp where
  | ok
  | err (status : Nat) (msg : String)
deriving DecidableEq, Repr

/-- Request body of `POST /api/command`.  `command = none` models a missing,
empty or `type`-less command dict (the three shapes rejected by
`if not cmd or "type" not in cmd`); a well-formed dict carries its `type`. -/
structure CommandBody where
  session : Option String := none
  session_id : Option String := none
  command : Option Cmd := none
  student : Option String := none

/-- `api_command` (POST /api/command), from the role check onward.  Returns
the store as persisted after the request (paths that never reach
`save_data` leave it untouched) and the response. -/
def api_command (store : Store) (b : CommandBody) (now : Instant) : Store × Resp :=
  let sid? := pyOrOpt b.session b.session_id
  if ¬ pyTruthyStr sid? then (store, .err 400 "session required")
  else
    let sid := sid?.getD ""
    let (d, act) := _active_session_ids store now
    if sid ∉ act then (store, .err 409 "session not active")
    else
      match b.command with
      | none => (store, .err 400 "invalid")
      | some cmd0 =>
        let cmd := { cmd0 with session_id := sid, ts := now.epoch }
        let target := pyStrip (b.student.getD "")
        let d1 := _enqueue_session_cmd d sid cmd
        let d2 :=
          if target ≠ "" then
            { d1 with
              pending_per_student :=
                Function.update d1.pending_per_student target
                  (lastN 50 (d1.pending_per_student target ++ [cmd])) }
          else d1
        (d2, .ok)

/-- Request body of `POST /api/notify`. -/
structure NotifyBody where
  title : Option String := none
  message : Option String := none
  session : Option String := none
  session_id : Option String := none

/-- `api_notify` (POST /api/notify), from the role check onward. -/
def api_notify (store : Store) (b : NotifyBody) (now : Instant) : Store × Resp :=
  let title := pyTake (pyOrDefault b.title "G School") 120
  let message := pyTake (pyOrDefault b.message "") 500
  let sid? := pyOrOpt b.session b.session_id
  if ¬ pyTruthyStr sid? then (store, .err 400 "session required")
  else
    let sid := sid?.getD ""
    let (d, act) := _active_session_ids store now
    if sid ∉ act then (store, .err 409 "session not active")
    else
      let cmd : Cmd :=
        { type := "notify", session_id := sid, ts := now.epoch
          payload := [("title", title), ("message", message)] }
      (_enqueue_session_cmd d sid cmd, .ok)

/-! ### Command drain (`api_commands`, GET branch) -/

/-- The per-student one-shot drain embedded in the GET branch of
`api_commands`: return the whole per-student queue and (when it was
non-empty) clear it. -/
def drainPerStudent (store : Store) (student : String) : List Cmd × Store :=
  let per_stu := store.pending_per_student student
  if per_stu ≠ [] then
    (per_stu,
     { store with
       pending_per_student := Function.update store.pending_per_student student [] })
  else ([], store)

/-- `to_take` for one session queue: the commands whose embedded
`session_id` stamp equals the queue's own id. -/
def sessionToTake (sid : String) (queue : List Cmd) : List Cmd :=
  queue.filter (fun c => c.session_id = sid)

/-- `remaining` for one session queue:
`[c for c in queue if c not in to_take]`. -/
def sessionRemaining (sid : String) (queue : List Cmd) : List Cmd :=
  queue.filter (fun c => decide (c ∉ sessionToTake sid queue))

/-- GET `/api/commands/<student>`: drain the per-student one-shots, then for
every active session enrolling the student take the matching-stamp commands
out of that session's queue.  Returns the delivered list and the persisted
store. -/
def api_commands_get (store : Store) (student : String) (now : Instant) :
    List Cmd × Store :=
  let (out0, d1) := drainPerStudent store student
  let (d2, active_sids) := _student_active_sessions d1 student now
  let step := fun (acc : List Cmd × (String → List Cmd)) (sid : String) =>
    let queue := acc.2 sid
    if queue ≠ [] then
      (acc.1 ++ sessionToTake sid queue,
       Function.update acc.2 sid (sessionRemaining sid queue))
    else acc
  let r := active_sids.foldl step (out0, d2.pending_by_session)
  (r.1, { d2 with pending_by_session := r.2 })

/-! ### Heartbeat (`api_heartbeat`) -/

/-- Response of `/api/heartbeat`.  `sessions = none` models the guest
response, which carries no `sessions` key at all. -/
structure HeartbeatResp where
  ok : Bool
  server_time : Int
  extension_enabled : Bool
  sessions : Option (List String × Merged) := none
deriving DecidableEq

/-- Request body of `POST /api/heartbeat` (keys the handler reads; `.get`
defaults applied). -/
structure HeartbeatBody where
  student : String := ""
  student_name : String := ""
  tab : Tab := {}
  tabs : List Tab := []
  screenshot : String := ""
  tabshots : List (String × String) := []
  shot_log : List ShotIn := []

/-- Insert-or-update one key of an ordered string map (Python dict
assignment `shots[k] = v`). -/
def upsertKV (m : List (String × String)) (k v : String) : List (String × String) :=
  if m.any (fun p => p.1 = k) then
    m.map (fun p => if p.1 = k then (k, v) else p)
  else m ++ [(k, v)]

/-- The presence/timeline/screenshot block of the heartbeat
(`if student:` body, lines 921–982 of src/app.py). -/
def heartbeatWrite (store : Store) (b : HeartbeatBody) (student : String)
    (now : Instant) : Store :=
  let pres0 := (store.presence student).getD {}
  let tab0 := b.tab
  -- favicon key fixup: prefer an existing favIconUrl, else copy favicon
  let tab1 :=
    if tab0.favIconUrl.isSome then tab0
    else if tab0.favicon.isSome then { tab0 with favIconUrl := tab0.favicon }
    else tab0
  -- tabshots: merge the posted shots into the stored ones, then keep only
  -- keys of currently open tab ids
  let shots1 := b.tabshots.foldl (fun m p => upsertKV m p.1 p.2) pres0.tabshots
  let openIds := (b.tabs.filter (fun t => t.id.isSome)).map
    (fun t => toString (t.id.getD 0))
  let shots2 := shots1.filter (fun p => p.1 ∈ openIds)
  let pres : PresenceRec :=
    { last_seen := now.epoch
      student_name := b.student_name
      tab := tab1
      tabs := b.tabs
      screenshot := b.screenshot
      tabshots := shots2 }
  -- timeline history
  let timeline := store.history student
  let url := pyStrip tab1.url
  let title := pyStrip tab1.title
  let should_add :=
    url ≠ "" ∧
      (timeline = [] ∨
        (timeline.getLast?.map (fun l => l.url)).getD "" ≠ url ∨
        now.epoch - ((timeline.getLast?.map (fun l => l.ts)).getD 0) ≥ 15)
  let history' :=
    if should_add then
      lastN 500 (timeline ++
        [{ ts := now.epoch, title := title, url := url, favIconUrl := tab1.favIconUrl }])
    else timeline
  -- screenshot history from shot_log (first 10 entries, capped at 200)
  let hist0 := store.screenshots student
  let shots' :=
    if b.shot_log ≠ [] then
      lastN 200 (hist0 ++ (b.shot_log.take 10).map
        (fun s => { ts := now.epoch, tabId := s.tabId, dataUrl := s.dataUrl
                    title := s.title.getD "", url := s.url.getD "" }))
    else hist0
  { store with
    presence := Function.update store.presence student (some pres)
    history := Function.update store.history student history'
    screenshots := Function.update store.screenshots student shots' }

/-- `api_heartbeat` (POST /api/heartbeat).  A guest identity returns before
anything is persisted; otherwise presence/timeline/screenshots are written,
the store is saved, and the active-session/effective-state summary is
computed (on the in-memory store, after the save). -/
def api_heartbeat (store : Store) (b : HeartbeatBody) (now : Instant) :
    Store × HeartbeatResp :=
  let student := pyStrip b.student
  let display_name := b.student_name
  let extension_enabled_global := store.extension_enabled
  if _is_guest_identity student display_name then
    (store,
     { ok := true, server_time := now.epoch, extension_enabled := false
       sessions := none })
  else
    let d := if student ≠ "" then heartbeatWrite store b student now else store
    -- `save_data(d)` happens here; the summaries below mutate only the
    -- in-memory copy (they are computed after the save).
    let active_for_student :=
      if student ≠ "" then (_student_active_sessions d student now).2 else []
    let effective :=
      if student ≠ "" then (_effective_state_for_student d student now).2
      else { focusMode := false, allowlist := [], examMode := false
             examUrl := "", session_ids := [] }
    (d,
     { ok := true, server_time := now.epoch
       extension_enabled := extension_enabled_global
       sessions := some (active_for_student, effective) })

/-! ### Roster Scoping Middleware (`_filter_json_by_roster`,
`_session_scoping_after`) -/

mutual

/-- A JSON value as produced by `json.loads` (objects keep key order and,
being dicts, have unique keys).  Lists and objects are their own inductives
so that the filter below is structurally recursive. -/
inductive Json where
  | null
  | b (v : Bool)
  | n (v : Int)
  | s (v : String)
  | arr (xs : JsonList)
  | obj (kvs : JsonObj)
deriving DecidableEq, Repr

/-- A JSON array's elements. -/
inductive JsonList where
  | nil
  | cons (hd : Json) (tl : JsonList)
deriving DecidableEq, Repr

/-- A JSON object's ordered key/value bindings. -/
inductive JsonObj where
  | nil
  | cons (k : String) (v : Json) (tl : JsonObj)
deriving DecidableEq, Repr

end

/-- The elements of a `JsonList` as a Lean list. -/
def JsonList.toList : JsonList → List Json
  | .nil => []
  | .cons x rest => x :: rest.toList

/-- A Lean list of values as a `JsonList`. -/
def JsonList.ofList : List Json → JsonList
  | [] => .nil
  | x :: rest => .cons x (JsonList.ofList rest)

/-- The bindings of a `JsonObj` as a Lean association list. -/
def JsonObj.toList : JsonObj → List (String × Json)
  | .nil => []
  | .cons k v rest => (k, v) :: rest.toList

/-- An association list as a `JsonObj`. -/
def JsonObj.ofList : List (String × Json) → JsonObj
  | [] => .nil
  | (k, v) :: rest => .cons k v (JsonObj.ofList rest)

/-- `_STUDENT_ID_KEYS` from the source. -/
def _STUDENT_ID_KEYS : List String := ["student", "email", "id", "user", "student_id"]

/-- Python `x[k]` for a JSON object (`json.loads` dicts have unique keys, so
first-binding lookup is exact). -/
def jsonLookup (kvs : JsonObj) (k : String) : Option Json :=
  match kvs with
  | .nil => none
  | .cons k0 v rest => if k0 = k then some v else jsonLookup rest k

/-- The identifier `_filter_json_by_roster` extracts from a list element:
the value of the first conventional key (in `_STUDENT_ID_KEYS` order)
present with a string value — `if k in x and isinstance(x[k], str)`. -/
def findSid (kvs : JsonObj) : Option String :=
  (_STUDENT_ID_KEYS.filterMap (fun k =>
    match jsonLookup kvs k with
    | some (.s v) => some v
    | _ => none)).head?

/-- The `continue` condition of the list branch of `_filter_json_by_roster`:
a dict carrying a student-like identifier is skipped when the roster is
empty or the identifier is not a member. -/
def dropElem (roster : List String) : Json → Bool
  | .obj kvs =>
    match findSid kvs with
    | some sid => decide (roster = [] ∨ sid ∉ roster)
    | none => false
  | _ => false

mutual

/-- `_filter_json_by_roster(obj, roster)`: lists drop student-like objects
whose identifier is outside the roster (everything when the roster is
empty) and recurse into the survivors; dicts recurse into their values;
scalars pass through.  The roster (`g._session_students`, a Python set) is
modelled by its member list, consumed via emptiness and membership only. -/
def _filter_json_by_roster (roster : List String) : Json → Json
  | .arr xs => .arr (filterJsonList roster xs)
  | .obj kvs => .obj (filterJsonKVs roster kvs)
  | j => j

/-- The list branch of `_filter_json_by_roster`: the drop decision is taken
on each element first, the survivors are filtered recursively. -/
def filterJsonList (roster : List String) : JsonList → JsonList
  | .nil => .nil
  | .cons x rest =>
    if dropElem roster x then filterJsonList roster rest
    else .cons (_filter_json_by_roster roster x) (filterJsonList roster rest)

/-- The dict branch of `_filter_json_by_roster`. -/
def filterJsonKVs (roster : List String) : JsonObj → JsonObj
  | .nil => .nil
  | .cons k v rest => .cons k (_filter_json_by_roster roster v) (filterJsonKVs roster rest)

end

/-- The body of a response whose mimetype is `application/json`, as seen by
`_session_scoping_after`: either it parses (`json.loads` succeeds) or not.
`malformed` carries the raw text of a body `json.loads` raises on. -/
inductive RespBody where
  | json (j : Json)
  | malformed (raw : String)
deriving DecidableEq, Repr

/-- The roster-filtering step of `_session_scoping_after` for a
session-scoped `application/json` response: a parsed body is replaced by its
filtered form; when `json.loads` (or anything else inside the `try`) raises,
the `except Exception: pass` leaves the response exactly as it was. -/
def sessionScopingAfter (roster : List String) : RespBody → RespBody
  | .json j => .json (_filter_json_by_roster roster j)
  | .malformed raw => .malformed raw

/-! ## Claims -/

set_option maxRecDepth 40000 in
/-- C4: `_enqueue_session_cmd` appends at the back of that session's queue,
and when the resulting length exceeds 200 it evicts from the front down to
exactly 200; 205 enqueues into an initially empty store leave exactly the
200 most recent commands, oldest first. -/
theorem C4_enqueue_session_append_and_cap :
    (∀ (store : Store) (sid : String) (cmd : Cmd),
      (_enqueue_session_cmd store sid cmd).pending_by_session sid =
        (if (store.pending_by_session sid).length + 1 > 200 then
          (store.pending_by_session sid ++ [cmd]).drop
            ((store.pending_by_session sid).length + 1 - 200)
        else store.pending_by_session sid ++ [cmd])) ∧
    (∀ (store : Store) (sid : String) (cmd : Cmd),
      ((_enqueue_session_cmd store sid cmd).pending_by_session sid).length =
        min ((store.pending_by_session sid).length + 1) 200) ∧
    ((List.range 205).foldl
        (fun st (i : Nat) => _enqueue_session_cmd st "sess" { ts := (i : Int) })
        {}).pending_by_session "sess" =
      ((List.range 205).drop 5).map (fun i => ({ ts := (i : Int) } : Cmd)) := by
  refine ⟨?_, ?_, ?_⟩
  · intro store sid cmd
    simp only [_enqueue_session_cmd, lastN, Function.update_same]
    by_cases h : (store.pending_by_session sid ++ [cmd]).length > 200
    · simp only [h, if_pos]
      simp only [List.length_append, List.length_singleton] at h ⊢
      rw [if_pos h]
    · simp only [h, if_neg, not_false_iff]
      simp only [List.length_append, List.length_singleton] at h ⊢
      rw [if_neg h]
  · intro store sid cmd
    simp only [_enqueue_session_cmd, lastN, Function.update_same]
    by_cases h : (store.pending_by_session sid ++ [cmd]).length > 200
    · rw [if_pos h]
      simp only [List.length_drop, List.length_append, List.length_singleton] at h ⊢
      omega
    · rw [if_neg h]
      simp only [List.length_append, List.length_singleton] at h ⊢
      omega
  · decide

/-- C5: the per-student drain of `api_commands` returns the whole per-student
queue and clears it; a second drain with no intervening enqueue returns the
empty list and leaves the store unchanged. -/
theorem C5_drain_per_student_full_and_terminal :
    ∀ (store : Store) (student : String),
      (drainPerStudent store student).1 = store.pending_per_student student ∧
      (drainPerStudent store student).2.pending_per_student student = [] ∧
      (drainPerStudent (drainPerStudent store student).2 student).1 = [] ∧
      (drainPerStudent (drainPerStudent store student).2 student).2 =
        (drainPerStudent store student).2 := by
  intro store student
  by_cases h : store.pending_per_student student = []
  · simp [drainPerStudent, h]
  · simp only [drainPerStudent, h, if_pos, ne_eq, not_false_iff, if_true,
      Function.update_same]
    simp

/-- C9: `_weekly_match` is true iff the instant's weekday is listed and its
time-of-day lies in `[start, end]`, inclusive on both ends; an entry whose
end clock time is strictly earlier than its start is false at every instant
(no midnight wrap); malformed entries (unparseable pieces, or hour/minute
values `datetime.replace` rejects) yield false instead of raising. -/
theorem C9_weekly_match_window :
    (∀ (days : Option (List Int)) (start endT : Option String) (now : Instant)
       (sh sm eh em : Int),
       parseHM (start.getD "00:00") = some (sh, sm) →
       parseHM (endT.getD "23:59") = some (eh, em) →
       0 ≤ sh → sh ≤ 23 → 0 ≤ sm → sm ≤ 59 →
       0 ≤ eh → eh ≤ 23 → 0 ≤ em → em ≤ 59 →
       (_weekly_match days start endT now = true ↔
         (now.weekday ∈ days.getD [] ∧
          (sh * 3600 + sm * 60) * 1000000 ≤ now.usOfDay ∧
          now.usOfDay ≤ (eh * 3600 + em * 60) * 1000000))) ∧
    (∀ (days : Option (List Int)) (start endT : Option String) (now : Instant)
       (sh sm eh em : Int),
       parseHM (start.getD "00:00") = some (sh, sm) →
       parseHM (endT.getD "23:59") = some (eh, em) →
       0 ≤ sh → sh ≤ 23 → 0 ≤ sm → sm ≤ 59 →
       0 ≤ eh → eh ≤ 23 → 0 ≤ em → em ≤ 59 →
       eh * 3600 + em * 60 < sh * 3600 + sm * 60 →
       _weekly_match days start endT now = false) ∧
    (∀ (days : Option (List Int)) (start endT : Option String) (now : Instant),
       (parseHM (start.getD "00:00") = none ∨ parseHM (endT.getD "23:59") = none) →
       _weekly_match days start endT now = false) ∧
    (∀ (days : Option (List Int)) (start endT : Option String) (now : Instant)
       (sh sm eh em : Int),
       parseHM (start.getD "00:00") = some (sh, sm) →
       parseHM (endT.getD "23:59") = some (eh, em) →
       ¬ (0 ≤ sh ∧ sh ≤ 23 ∧ 0 ≤ sm ∧ sm ≤ 59 ∧ 0 ≤ eh ∧ eh ≤ 23 ∧ 0 ≤ em ∧ em ≤ 59) →
       _weekly_match days start endT now = false) := by
  have base :
      ∀ (days : Option (List Int)) (start endT : Option String) (now : Instant)
        (sh sm eh em : Int),
        parseHM (start.getD "00:00") = some (sh, sm) →
        parseHM (endT.getD "23:59") = some (eh, em) →
        0 ≤ sh → sh ≤ 23 → 0 ≤ sm → sm ≤ 59 →
        0 ≤ eh → eh ≤ 23 → 0 ≤ em → em ≤ 59 →
        (_weekly_match days start endT now = true ↔
          (now.weekday ∈ days.getD [] ∧
           (sh * 3600 + sm * 60) * 1000000 ≤ now.usOfDay ∧
           now.usOfDay ≤ (eh * 3600 + em * 60) * 1000000)) := by
    intro days start endT now sh sm eh em hps hpe h1 h2 h3 h4 h5 h6 h7 h8
    by_cases hw : now.weekday ∈ days.getD []
    · simp [_weekly_match, hw, hps, hpe, h1, h2, h3, h4, h5, h6, h7, h8]
    · simp [_weekly_match, hw, hps, hpe]
  refine ⟨base, ?_, ?_, ?_⟩
  · intro days start endT now sh sm eh em hps hpe h1 h2 h3 h4 h5 h6 h7 h8 hlt
    have hiff := base days start endT now sh sm eh em hps hpe h1 h2 h3 h4 h5 h6 h7 h8
    rcases Bool.eq_false_or_eq_true (_weekly_match days start endT now) with h | h
    · exfalso
      rcases hiff.mp h with ⟨_, hle1, hle2⟩
      omega
    · exact h
  · intro days start endT now hnone
    by_cases hw : now.weekday ∈ days.getD []
    · rcases hnone with h | h
      · simp [_weekly_match, hw, h]
      · rcases hcase : parseHM (start.getD "00:00") with _ | ⟨sh, sm⟩
        · simp [_weekly_match, hw, hcase]
        · simp [_weekly_match, hw, hcase, h]
    · simp [_weekly_match, hw]
  · intro days start endT now sh sm eh em hps hpe hbad
    by_cases hw : now.weekday ∈ days.getD []
    · simp only [_weekly_match, hw, not_true, if_false, hps, hpe]
      rw [if_neg hbad]
    · simp [_weekly_match, hw]

/-- Witness for C9 at concrete entries: a Tuesday 10:00–11:30 window
matching 10:00:00, an end-before-start entry rejected, and an unparseable
start time rejected. -/
theorem C9_weekly_match_window_witness :
    _weekly_match (some [2]) (some "10:00") (some "11:30")
      ⟨2, 36000000000, 0⟩ = true ∧
    _weekly_match (some [2]) (some "11:00") (some "10:30")
      ⟨2, 36000000000, 0⟩ = false ∧
    _weekly_match (some [2]) (some "ten") (some "11:30") ⟨2, 0, 0⟩ = false := by
  refine ⟨?_, ?_, ?_⟩
  · exact (C9_weekly_match_window.1 (some [2]) (some "10:00") (some "11:30")
      ⟨2, 36000000000, 0⟩ 10 0 11 30 (by decide) (by decide) (by decide) (by decide)
      (by decide) (by decide) (by decide) (by decide) (by decide) (by decide)).mpr
      (by refine ⟨by decide, by decide, by decide⟩)
  · exact C9_weekly_match_window.2.1 (some [2]) (some "11:00") (some "10:30")
      ⟨2, 36000000000, 0⟩ 11 0 10 30 (by decide) (by decide) (by decide) (by decide)
      (by decide) (by decide) (by decide) (by decide) (by decide) (by decide)
      (by decide)
  · exact C9_weekly_match_window.2.2.1 (some [2]) (some "ten") (some "11:30")
      ⟨2, 0, 0⟩ (Or.inl (by decide))

/-- C10: a heartbeat whose identity is classified as guest returns ok with
`extension_enabled = false` (and no `sessions` key) and persists nothing:
the store is returned exactly as it was. -/
theorem C10_heartbeat_guest_writes_nothing :
    ∀ (store : Store) (b : HeartbeatBody) (now : Instant),
      _is_guest_identity (pyStrip b.student) b.student_name = true →
      api_heartbeat store b now =
        (store,
         { ok := true, server_time := now.epoch, extension_enabled := false
           sessions := none }) := by
  intro store b now hg
  simp [api_heartbeat, hg]

/-- Witness for C10: a concrete guest heartbeat (`student = "guest_account"`)
is classified guest and leaves a default store untouched. -/
theorem C10_heartbeat_guest_writes_nothing_witness :
    _is_guest_identity (pyStrip "guest_account") "" = true ∧
    api_heartbeat {} { student := "guest_account" } ⟨0, 0, 100⟩ =
      ({},
       { ok := true, server_time := 100, extension_enabled := false
         sessions := none }) :=
  ⟨by decide,
   C10_heartbeat_guest_writes_nothing {} { student := "guest_account" }
     ⟨0, 0, 100⟩ (by decide)⟩

/-- C2: sending a command (`POST /api/command`) or a notification
(`POST /api/notify`) naming a session that is not in the freshly reconciled
active set fails with the distinguishable 409 `session not active` error,
and neither the per-session nor the per-student queues change (the store is
returned as it was; `save_data` is never reached). -/
theorem C2_send_to_inactive_session_fails :
    ∀ (store : Store) (now : Instant) (sid : String)
      (b : CommandBody) (nb : NotifyBody),
      pyOrOpt b.session b.session_id = some sid →
      pyOrOpt nb.session nb.session_id = some sid →
      sid ≠ "" →
      sid ∉ (_reconcile_active_sessions store now).active_sessions →
      api_command store b now = (store, .err 409 "session not active") ∧
      (api_command store b now).1.pending_by_session = store.pending_by_session ∧
      (api_command store b now).1.pending_per_student = store.pending_per_student ∧
      api_notify store nb now = (store, .err 409 "session not active") ∧
      (api_notify store nb now).1.pending_by_session = store.pending_by_session ∧
      (api_notify store nb now).1.pending_per_student = store.pending_per_student := by
  intro store now sid b nb hb hnb hne hact
  have hcmd : api_command store b now = (store, .err 409 "session not active") := by
    simp [api_command, hb, pyTruthyStr, hne, _active_session_ids, hact]
  have hnot : api_notify store nb now = (store, .err 409 "session not active") := by
    simp [api_notify, hnb, pyTruthyStr, hne, _active_session_ids, hact]
  exact ⟨hcmd, by rw [hcmd], by rw [hcmd], hnot, by rw [hnot], by rw [hnot]⟩

/-- Witness for C2: a store holding one session `s1` that is neither
schedule-active nor manually active; sending to `s1` fails with 409 and the
store is unchanged. -/
theorem C2_send_to_inactive_session_fails_witness :
    api_command { sessions := [{ id := "s1" }] } { session := some "s1" }
        ⟨0, 0, 100⟩ =
      ({ sessions := [{ id := "s1" }] }, .err 409 "session not active") ∧
    api_notify { sessions := [{ id := "s1" }] } { session := some "s1" }
        ⟨0, 0, 100⟩ =
      ({ sessions := [{ id := "s1" }] }, .err 409 "session not active") := by
  have h := C2_send_to_inactive_session_fails { sessions := [{ id := "s1" }] }
    ⟨0, 0, 100⟩ "s1" { session := some "s1" } { session := some "s1" }
    (by decide) (by decide) (by decide) (by decide)
  exact ⟨h.1, h.2.2.2.1⟩

/-! ### Reconciler characterization (towards C1) -/

/-- Keys produced by `pyDictKeys` are exactly the input's elements. -/
lemma mem_pyDictKeys {l : List String} {k : String} :
    k ∈ pyDictKeys l ↔ k ∈ l := by
  simp [pyDictKeys, List.mem_reverse, List.mem_dedup]

/-- `pyDictKeys` has no duplicate keys. -/
lemma nodup_pyDictKeys (l : List String) : (pyDictKeys l).Nodup := by
  simpa [pyDictKeys, List.nodup_reverse] using List.nodup_dedup l.reverse

/-- `lookupLastSession` is `none` exactly when no session carries the id. -/
lemma lookupLastSession_eq_none {l : List Session} {sid : String} :
    lookupLastSession l sid = none ↔ sid ∉ l.map (fun s => s.id) := by
  simp only [lookupLastSession, List.getLast?_eq_none_iff, List.filter_eq_nil_iff,
    List.mem_map, decide_eq_true_eq]
  constructor
  · rintro h ⟨s, hs, rfl⟩
    exact h s hs rfl
  · intro h s hs he
    exact h ⟨s, hs, he⟩

/-- A session returned by `lookupLastSession l sid` carries id `sid`. -/
lemma lookupLastSession_id {l : List Session} {sid : String} {sess : Session}
    (h : lookupLastSession l sid = some sess) : sess.id = sid := by
  have hx : sess ∈ (l.filter (fun s => s.id = sid)).getLast? := h
  obtain ⟨hne, heq⟩ := List.mem_getLast?_eq_getLast hx
  have hmem : sess ∈ l.filter (fun s => s.id = sid) := heq ▸ List.getLast_mem hne
  simpa using List.of_mem_filter hmem

/-- A step of the reconciliation loop never changes the membership of an id
other than the one being processed. -/
lemma mem_reconcileStep_other {now : Instant} {sessions : List Session}
    {a : Finset String} {sid t : String} (hne : t ≠ sid) :
    (t ∈ reconcileStep now sessions a sid ↔ t ∈ a) := by
  unfold reconcileStep
  cases h : lookupLastSession sessions sid with
  | none => exact Iff.rfl
  | some sess =>
    dsimp only
    split_ifs with h1 h2 <;>
      simp [Finset.mem_insert, Finset.mem_erase, hne]

/-- A step of the reconciliation loop on the id being processed: it ends up
in the set iff it is schedule-active or was already there with the manual
flag set. -/
lemma mem_reconcileStep_self {now : Instant} {sessions : List Session}
    {a : Finset String} {sid : String} {sess : Session}
    (h : lookupLastSession sessions sid = some sess) :
    (sid ∈ reconcileStep now sessions a sid ↔
      (_session_is_scheduled_active sess now = true ∨
       (sid ∈ a ∧ sess.manual = true))) := by
  unfold reconcileStep
  rw [h]
  dsimp only
  split_ifs with h1 h2
  · simp [h1]
  · simp [Finset.mem_erase, h1, h2.2]
  · rw [not_and_or, not_not] at h2
    rcases h2 with h2 | h2
    · simp [h1, h2]
    · simp [h1, h2]

/-- Folding the reconciliation loop over keys not containing `sid` leaves
`sid`'s membership alone. -/
lemma mem_foldl_reconcileStep_not_mem {now : Instant} {sessions : List Session}
    {keys : List String} {a : Finset String} {sid : String} (h : sid ∉ keys) :
    (sid ∈ keys.foldl (reconcileStep now sessions) a ↔ sid ∈ a) := by
  induction keys generalizing a with
  | nil => exact Iff.rfl
  | cons k ks ih =>
    rw [List.foldl_cons]
    rw [ih (fun hk => h (List.mem_cons_of_mem _ hk))]
    exact mem_reconcileStep_other (fun he => h (he ▸ List.mem_cons_self _ _))

/-- Folding the reconciliation loop over duplicate-free keys containing
`sid`: membership of `sid` afterwards is decided by `sid`'s own step. -/
lemma mem_foldl_reconcileStep {now : Instant} {sessions : List Session}
    {keys : List String} {a : Finset String} {sid : String} {sess : Session}
    (hnd : keys.Nodup) (hmem : sid ∈ keys)
    (hlook : lookupLastSession sessions sid = some sess) :
    (sid ∈ keys.foldl (reconcileStep now sessions) a ↔
      (_session_is_scheduled_active sess now = true ∨
       (sid ∈ a ∧ sess.manual = true))) := by
  induction keys generalizing a with
  | nil => cases hmem
  | cons k ks ih =>
    rw [List.foldl_cons]
    rcases List.mem_cons.mp hmem with rfl | hmem'
    · have hnot : sid ∉ ks := (List.nodup_cons.mp hnd).1
      rw [mem_foldl_reconcileStep_not_mem hnot]
      exact mem_reconcileStep_self hlook
    · have hne : sid ≠ k := by
        rintro rfl
        exact (List.nodup_cons.mp hnd).1 hmem'
      rw [ih (List.nodup_cons.mp hnd).2 hmem']
      rw [mem_reconcileStep_other hne]

/-- C1 counterexample: a session with `manual = true` that is not
schedule-active and was not in the previously persisted active set is NOT in
the reconciled active set, although the claimed
"iff schedule-active OR manual" would put it there. -/
theorem C1_counterexample_manual_not_added :
    ¬ ("s1" ∈
        (_reconcile_active_sessions
          { sessions := [{ id := "s1", manual := true }] } ⟨0, 0, 0⟩).active_sessions ↔
       (_session_is_scheduled_active { id := "s1", manual := true } ⟨0, 0, 0⟩ = true ∨
        ({ id := "s1", manual := true } : Session).manual = true)) := by
  decide

/-- C1 amended: after one reconciliation pass, an id carrying a session
definition (the last one, when ids repeat) is in the resulting active set
iff that session is schedule-active at the instant OR the id was already in
the previously persisted active set and the session's manual flag is true;
an id with no session definition keeps its previous membership.  The result
therefore genuinely depends on the previously persisted active set and is
not a pure function of (definitions, manual flags, instant). -/
theorem C1_reconcile_membership :
    ∀ (store : Store) (now : Instant) (sid : String),
      (∀ sess : Session,
        lookupLastSession store.sessions sid = some sess →
        (sid ∈ (_reconcile_active_sessions store now).active_sessions ↔
          (_session_is_scheduled_active sess now = true ∨
           (sid ∈ store.active_sessions ∧ sess.manual = true)))) ∧
      (lookupLastSession store.sessions sid = none →
        (sid ∈ (_reconcile_active_sessions store now).active_sessions ↔
          sid ∈ store.active_sessions)) := by
  intro store now sid
  constructor
  · intro sess hlook
    have hmem : sid ∈ pyDictKeys (store.sessions.map (fun s => s.id)) := by
      rw [mem_pyDictKeys]
      by_contra hno
      rw [← lookupLastSession_eq_none] at hno
      rw [hlook] at hno
      cases hno
    exact mem_foldl_reconcileStep
      (nodup_pyDictKeys (store.sessions.map (fun s => s.id))) hmem hlook
  · intro hnone
    have hno : sid ∉ pyDictKeys (store.sessions.map (fun s => s.id)) := by
      rw [mem_pyDictKeys]
      exact lookupLastSession_eq_none.mp hnone
    exact mem_foldl_reconcileStep_not_mem hno

/-- Witness for C1's amended statement: a schedule-active session enters the
set; an id with no definition ("ghost") survives reconciliation because it
was in the persisted set. -/
theorem C1_reconcile_membership_witness :
    "s1" ∈
      (_reconcile_active_sessions
        { sessions := [{ id := "s1", schedule := [.oneoff (some 0) (some 200)] }]
          active_sessions := {"ghost"} } ⟨0, 0, 100⟩).active_sessions ∧
    "ghost" ∈
      (_reconcile_active_sessions
        { sessions := [{ id := "s1", schedule := [.oneoff (some 0) (some 200)] }]
          active_sessions := {"ghost"} } ⟨0, 0, 100⟩).active_sessions := by
  constructor
  · exact ((C1_reconcile_membership
      { sessions := [{ id := "s1", schedule := [.oneoff (some 0) (some 200)] }]
        active_sessions := {"ghost"} } ⟨0, 0, 100⟩ "s1").1
      { id := "s1", schedule := [.oneoff (some 0) (some 200)] } (by decide)).mpr
      (Or.inl (by decide))
  · exact ((C1_reconcile_membership
      { sessions := [{ id := "s1", schedule := [.oneoff (some 0) (some 200)] }]
        active_sessions := {"ghost"} } ⟨0, 0, 100⟩ "ghost").2 (by decide)).mpr
      (by decide)

/-! ### Merge-loop characterization (towards C3) -/

/-- `mergeStep` ORs in the session's `focusMode`. -/
lemma mergeStep_focusMode (acc : MergeAcc) (s : Session) :
    (mergeStep acc s).focusMode = (acc.focusMode || s.controls.focusMode) := by
  unfold mergeStep
  cases hf : s.controls.focusMode <;> cases he : s.controls.examMode <;> simp [hf, he]

/-- `mergeStep` ORs in the session's `examMode`. -/
lemma mergeStep_examMode (acc : MergeAcc) (s : Session) :
    (mergeStep acc s).examMode = (acc.examMode || s.controls.examMode) := by
  unfold mergeStep
  cases hf : s.controls.focusMode <;> cases he : s.controls.examMode <;> simp [hf, he]

/-- `mergeStep` adopts the session's `examUrl` only when the session is in
exam mode, nothing was adopted yet, and the url is non-empty. -/
lemma mergeStep_examUrl (acc : MergeAcc) (s : Session) :
    (mergeStep acc s).examUrl =
      (if s.controls.examMode = true ∧ acc.examUrl = "" ∧ s.controls.examUrl ≠ ""
       then s.controls.examUrl else acc.examUrl) := by
  unfold mergeStep
  cases hf : s.controls.focusMode <;> cases he : s.controls.examMode <;>
    by_cases hu : acc.examUrl = "" <;> by_cases hc : s.controls.examUrl = "" <;>
      simp [hf, he, hu, hc]

/-- Folding `insert` over a list unions its elements in. -/
lemma foldl_insert_eq_union (l : List String) (init : Finset String) :
    l.foldl (fun t u => insert u t) init = init ∪ l.toFinset := by
  induction l generalizing init with
  | nil => simp
  | cons a l ih =>
    simp only [List.foldl_cons, List.toFinset_cons, ih, Finset.insert_union,
      Finset.union_insert]

/-- `mergeStep` unions in the session's allowlist. -/
lemma mergeStep_allow (acc : MergeAcc) (s : Session) :
    (mergeStep acc s).allow = acc.allow ∪ s.controls.allowlist.toFinset := by
  unfold mergeStep
  cases hf : s.controls.focusMode <;> cases he : s.controls.examMode <;>
    simp [hf, he, foldl_insert_eq_union]

/-- The merge loop's `focusMode` is an OR over the selected sessions. -/
lemma mergeFold_focusMode (l : List Session) (acc : MergeAcc) :
    (l.foldl mergeStep acc).focusMode =
      (acc.focusMode || l.any (fun s => s.controls.focusMode)) := by
  induction l generalizing acc with
  | nil => simp
  | cons s l ih =>
    rw [List.foldl_cons, ih, mergeStep_focusMode]
    simp [Bool.or_assoc]

/-- The merge loop's `examMode` is an OR over the selected sessions. -/
lemma mergeFold_examMode (l : List Session) (acc : MergeAcc) :
    (l.foldl mergeStep acc).examMode =
      (acc.examMode || l.any (fun s => s.controls.examMode)) := by
  induction l generalizing acc with
  | nil => simp
  | cons s l ih =>
    rw [List.foldl_cons, ih, mergeStep_examMode]
    simp [Bool.or_assoc]

/-- The merge loop's allow-set collects exactly the selected allowlists. -/
lemma mergeFold_allow_mem (l : List Session) (acc : MergeAcc) (u : String) :
    (u ∈ (l.foldl mergeStep acc).allow ↔
      (u ∈ acc.allow ∨ ∃ s ∈ l, u ∈ s.controls.allowlist)) := by
  induction l generalizing acc with
  | nil => simp
  | cons s l ih =>
    rw [List.foldl_cons, ih, mergeStep_allow]
    simp only [Finset.mem_union, List.mem_toFinset, List.mem_cons]
    constructor
    · rintro ((h | h) | ⟨s', hs', hu⟩)
      · exact Or.inl h
      · exact Or.inr ⟨s, Or.inl rfl, h⟩
      · exact Or.inr ⟨s', Or.inr hs', hu⟩
    · rintro (h | ⟨s', (rfl | hs'), hu⟩)
      · exact Or.inl (Or.inl h)
      · exact Or.inl (Or.inr hu)
      · exact Or.inr ⟨s', hs', hu⟩

/-- The `examUrl` the source actually composes: the first non-empty
`examUrl` among the selected sessions WHOSE `examMode` is true, in
enumeration order. -/
def firstExamUrlOfExamSessions (sel : List Session) : String :=
  (((sel.filter (fun s => s.controls.examMode)).map
      (fun s => s.controls.examUrl)).filter (fun u => u ≠ "")).head?.getD ""

/-- Cons unfolding of `firstExamUrlOfExamSessions`. -/
lemma firstExamUrlOfExamSessions_cons (s : Session) (l : List Session) :
    firstExamUrlOfExamSessions (s :: l) =
      (if s.controls.examMode = true then
        (if s.controls.examUrl ≠ "" then s.controls.examUrl
         else firstExamUrlOfExamSessions l)
      else firstExamUrlOfExamSessions l) := by
  unfold firstExamUrlOfExamSessions
  cases hm : s.controls.examMode
  · simp [hm]
  · by_cases hu : s.controls.examUrl = "" <;> simp [hm, hu]

/-- The merge loop's `examUrl` is the first-wins choice over exam-mode
sessions, once an already-adopted url is respected. -/
lemma mergeFold_examUrl (l : List Session) (acc : MergeAcc) :
    (l.foldl mergeStep acc).examUrl =
      (if acc.examUrl = "" then firstExamUrlOfExamSessions l else acc.examUrl) := by
  induction l generalizing acc with
  | nil =>
    by_cases h : acc.examUrl = "" <;> simp [firstExamUrlOfExamSessions, h]
  | cons s l ih =>
    rw [List.foldl_cons, ih, mergeStep_examUrl, firstExamUrlOfExamSessions_cons]
    by_cases ha : acc.examUrl = ""
    · cases hm : s.controls.examMode
      · simp [ha, hm]
      · by_cases hu : s.controls.examUrl = "" <;> simp [ha, hm, hu]
    · cases hm : s.controls.examMode
      · simp [ha, hm]
      · by_cases hu : s.controls.examUrl = "" <;> simp [ha, hm, hu]

/-- The sessions `_effective_state_for_student` selects: active (after
reconciliation) and enrolling the student, in `sessions` order. -/
def selectedSessions (store : Store) (student : String) (now : Instant) :
    List Session :=
  (_reconcile_active_sessions store now).sessions.filter
    (fun s => s.id ∈ (_reconcile_active_sessions store now).active_sessions ∧
      student ∈ s.students)

/-- C3 amended: the composed state has `focusMode` (resp. `examMode`) true
iff ANY selected session's flag is true, `allowlist` the set union of the
selected allowlists, and `examUrl` the first non-empty `examUrl` — in
enumeration order — among the selected sessions WHOSE `examMode` is true
(a session with `examMode = false` never contributes its `examUrl`). -/
theorem C3_effective_state_composition :
    ∀ (store : Store) (student : String) (now : Instant),
      ((_effective_state_for_student store student now).2.focusMode =
        (selectedSessions store student now).any (fun s => s.controls.focusMode)) ∧
      ((_effective_state_for_student store student now).2.examMode =
        (selectedSessions store student now).any (fun s => s.controls.examMode)) ∧
      (∀ u : String,
        u ∈ (_effective_state_for_student store student now).2.allowlist ↔
          ∃ s ∈ selectedSessions store student now, u ∈ s.controls.allowlist) ∧
      ((_effective_state_for_student store student now).2.examUrl =
        firstExamUrlOfExamSessions (selectedSessions store student now)) ∧
      ((_effective_state_for_student store student now).2.session_ids =
        (selectedSessions store student now).map (fun s => s.id)) := by
  intro store student now
  refine ⟨?_, ?_, ?_, ?_, ?_⟩
  · simp [_effective_state_for_student, selectedSessions, mergeFold_focusMode]
  · simp [_effective_state_for_student, selectedSessions, mergeFold_examMode]
  · intro u
    simp [_effective_state_for_student, selectedSessions, Finset.mem_sort,
      mergeFold_allow_mem]
  · simp [_effective_state_for_student, selectedSessions, mergeFold_examUrl]
  · simp [_effective_state_for_student, selectedSessions]

/-- A session enrolling `alice` with `examMode = false` but a non-empty
`examUrl`, manually active. -/
def C3sessA : Session :=
  { id := "s1", students := ["alice"]
    controls := { examMode := false, examUrl := "u1" }, manual := true }

/-- A session enrolling `alice` with `examMode = true` and `examUrl`
`"u2"`, manually active. -/
def C3sessB : Session :=
  { id := "s2", students := ["alice"]
    controls := { examMode := true, examUrl := "u2" }, manual := true }

/-- A store where both sessions are (and remain) active. -/
def C3store : Store :=
  { sessions := [C3sessA, C3sessB], active_sessions := {"s1", "s2"} }

/-- Modelled from the spec: "`examUrl` = the first non-empty examUrl
encountered among selected sessions in enumeration order (first-wins, not
last-wins)" — over ALL selected sessions, with no `examMode` condition. -/
def specFirstExamUrl (sel : List Session) : String :=
  ((sel.map (fun s => s.controls.examUrl)).filter (fun u => u ≠ "")).head?.getD ""

/-- C3 counterexample: with selected sessions `[C3sessA, C3sessB]`, the
spec's "first non-empty examUrl among selected sessions" is `"u1"`, but the
code composes `"u2"`: `C3sessA.examMode` is false, so its url is skipped. -/
theorem C3_counterexample_examUrl_skips_non_exam_sessions :
    selectedSessions C3store "alice" ⟨0, 0, 0⟩ = [C3sessA, C3sessB] ∧
    (_effective_state_for_student C3store "alice" ⟨0, 0, 0⟩).2.examUrl = "u2" ∧
    specFirstExamUrl [C3sessA, C3sessB] = "u1" ∧
    (_effective_state_for_student C3store "alice" ⟨0, 0, 0⟩).2.examUrl ≠
      specFirstExamUrl (selectedSessions C3store "alice" ⟨0, 0, 0⟩) := by
  decide

/-- A command stamped for session `s2` sitting in session `s1`'s queue. -/
def C6cmd : Cmd := { type := "notify", session_id := "s2" }

/-- A store where `s1` is active, enrols `alice`, and its queue holds only
the mis-stamped `C6cmd`. -/
def C6store : Store :=
  { sessions := [{ id := "s1", students := ["alice"], manual := true }]
    active_sessions := {"s1"}
    pending_by_session := fun sid => if sid = "s1" then [C6cmd] else [] }

/-- C6 counterexample: draining `alice`'s commands delivers nothing (the
mismatched stamp is indeed never delivered) but the corrupt command is
RETAINED in `s1`'s queue, not dropped as the claim states. -/
theorem C6_counterexample_mismatch_retained :
    (api_commands_get C6store "alice" ⟨0, 0, 0⟩).1 = [] ∧
    (api_commands_get C6store "alice" ⟨0, 0, 0⟩).2.pending_by_session "s1" =
      [C6cmd] := by
  decide

/-- C6 amended: in the session-queue drain of `api_commands`, a command
whose embedded `session_id` stamp differs from the id of the queue it
resides in is never part of that queue's delivered batch (`to_take`), and it
REMAINS in the queue (`remaining`) — it is retained for ever rather than
dropped; only delivered (matching) commands are removed. -/
theorem C6_mismatched_stamp_not_delivered_but_retained :
    ∀ (sid : String) (queue : List Cmd) (cmd : Cmd),
      cmd ∈ queue → cmd.session_id ≠ sid →
      cmd ∉ sessionToTake sid queue ∧
      cmd ∈ sessionRemaining sid queue ∧
      (∀ c ∈ sessionToTake sid queue, c.session_id = sid) := by
  intro sid queue cmd hmem hne
  have hnot : cmd ∉ sessionToTake sid queue := by
    intro hc
    exact hne (by simpa using (List.mem_filter.mp hc).2)
  refine ⟨hnot, ?_, ?_⟩
  · exact List.mem_filter.mpr ⟨hmem, by simpa using hnot⟩
  · intro c hc
    simpa using (List.mem_filter.mp hc).2

/-- Witness for C6's amended statement at the concrete corrupt queue. -/
theorem C6_mismatched_stamp_witness :
    C6cmd ∉ sessionToTake "s1" [C6cmd] ∧
    C6cmd ∈ sessionRemaining "s1" [C6cmd] :=
  ⟨(C6_mismatched_stamp_not_delivered_but_retained "s1" [C6cmd] C6cmd
      (by decide) (by decide)).1,
   (C6_mismatched_stamp_not_delivered_but_retained "s1" [C6cmd] C6cmd
      (by decide) (by decide)).2.1⟩

/-- An entry for student `s1`. -/
def C7e1 : Json := .obj (.cons "student" (.s "s1") .nil)

/-- An entry for student `s2`. -/
def C7e2 : Json := .obj (.cons "student" (.s "s2") .nil)

/-- An entry for student `s3`. -/
def C7e3 : Json := .obj (.cons "student" (.s "s3") .nil)

/-- The list branch of the roster filter, reorganized: keep exactly the
elements not classified for dropping, each recursively filtered, in order. -/
lemma filterJsonList_eq_filter_map (roster : List String) :
    ∀ xs : JsonList,
      filterJsonList roster xs =
        JsonList.ofList ((xs.toList.filter (fun x => ! dropElem roster x)).map
          (_filter_json_by_roster roster))
  | .nil => rfl
  | .cons x rest => by
    have ih := filterJsonList_eq_filter_map roster rest
    by_cases hd : dropElem roster x = true
    · simp [filterJsonList, hd, ih, JsonList.toList, List.filter_cons]
    · simp only [Bool.not_eq_true] at hd
      simp [filterJsonList, hd, ih, JsonList.toList, List.filter_cons,
        JsonList.ofList]

/-- C7: the outbound roster filter keeps, in every list, exactly the
elements it does not classify as out-of-roster student objects (recursively
filtered, order preserved); an object is dropped iff it carries a
conventional student-identifier and the roster is empty or misses that
identifier; scalars pass through unchanged; and on the spec's example,
entries for `s1,s2,s3` against roster `{s1,s2}` filter to `s1,s2`, and
against an empty roster to the empty list. -/
theorem C7_roster_filter_drops_nonmembers :
    (∀ (roster : List String) (xs : JsonList),
      filterJsonList roster xs =
        JsonList.ofList ((xs.toList.filter (fun x => ! dropElem roster x)).map
          (_filter_json_by_roster roster))) ∧
    (∀ (roster : List String) (kvs : JsonObj) (sid : String),
      findSid kvs = some sid →
      (dropElem roster (Json.obj kvs) = true ↔ (roster = [] ∨ sid ∉ roster))) ∧
    (∀ (roster : List String) (kvs : JsonObj),
      findSid kvs = none → dropElem roster (Json.obj kvs) = false) ∧
    (∀ (roster : List String) (v : String),
      _filter_json_by_roster roster (Json.s v) = Json.s v) ∧
    (∀ (roster : List String) (v : Int),
      _filter_json_by_roster roster (Json.n v) = Json.n v) ∧
    (∀ (roster : List String) (v : Bool),
      _filter_json_by_roster roster (Json.b v) = Json.b v) ∧
    (∀ roster : List String,
      _filter_json_by_roster roster Json.null = Json.null) ∧
    (_filter_json_by_roster ["s1", "s2"]
        (.arr (.cons C7e1 (.cons C7e2 (.cons C7e3 .nil)))) =
      .arr (.cons C7e1 (.cons C7e2 .nil))) ∧
    (_filter_json_by_roster []
        (.arr (.cons C7e1 (.cons C7e2 (.cons C7e3 .nil)))) = .arr .nil) := by
  refine ⟨fun roster xs => filterJsonList_eq_filter_map roster xs, ?_, ?_,
    fun _ _ => rfl, fun _ _ => rfl, fun _ _ => rfl,
    fun _ => rfl, by decide, by decide⟩
  · intro roster kvs sid h
    simp [dropElem, h]
  · intro roster kvs h
    simp [dropElem, h]

/-- Witness for C7's drop-condition clauses at concrete objects: an entry
for `s3` is dropped against roster `{s1}`, kept against `{s3}`, and an
object with no student-identifier key is never dropped. -/
theorem C7_roster_filter_drops_nonmembers_witness :
    dropElem ["s1"] C7e3 = true ∧
    dropElem ["s3"] C7e3 = false ∧
    dropElem ["s1"] (Json.obj (.cons "note" (.s "x") .nil)) = false := by
  refine ⟨?_, ?_, ?_⟩
  · exact (C7_roster_filter_drops_nonmembers.2.1 ["s1"]
      (.cons "student" (.s "s3") .nil) "s3" (by decide)).mpr
      (Or.inr (by decide))
  · have h := C7_roster_filter_drops_nonmembers.2.1 ["s3"]
      (.cons "student" (.s "s3") .nil) "s3" (by decide)
    show dropElem ["s3"] (Json.obj (.cons "student" (.s "s3") .nil)) = false
    rcases Bool.eq_false_or_eq_true
      (dropElem ["s3"] (Json.obj (.cons "student" (.s "s3") .nil))) with ht | hf
    · rcases h.mp ht with hc | hc
      · cases hc
      · exact absurd (by decide) hc
    · exact hf
  · exact C7_roster_filter_drops_nonmembers.2.2.1 ["s1"]
      (.cons "note" (.s "x") .nil) (by decide)

/-- C8 (code bug): when applying the outbound roster filter raises — e.g.
`json.loads` cannot parse a session-scoped `application/json` response — the
`except Exception: pass` of `_session_scoping_after` returns the UNFILTERED
response unchanged, instead of suppressing it in favor of a safe empty
result as the spec requires; concretely a malformed body survives even an
empty roster, and in general every malformed body passes through. -/
theorem C8_filter_error_passes_unfiltered_response :
    sessionScopingAfter [] (.malformed "[1, 2,") = .malformed "[1, 2," ∧
    sessionScopingAfter [] (.malformed "[1, 2,") ≠ .json (.arr .nil) ∧
    ∀ (roster : List String) (raw : String),
      sessionScopingAfter roster (.malformed raw) = .malformed raw := by
  exact ⟨rfl, by decide, fun _ _ => rfl⟩
